import Mathlib

/-!
Shallow embedding of the decision engine of the auto-reply bot in
main.py: the GM/GN mode classifier, the eligibility filter and
partition, the cooldown/quota ledger, and the per-post processing of
the cycle orchestrator.  External effects (OpenAI text generation, the
browser delivery of a reply, wall-clock reads) are modelled as oracles;
persistence writes are modelled as an event log.
-/

namespace YapBot

/-- Python truthiness for an optional string: `not text` is true for
`None` and for the empty string. -/
def pyFalsy : Option String → Bool
  | none => true
  | some s => s == ""

/-- Python `a or b` on strings: `b` when `a` is empty, else `a`. -/
def pyOrS (a b : String) : String :=
  if a = "" then b else a

/-- Python `v or d` where `v` is an optional string (used for
`gmgn_val or "GM"`). -/
def pyOrOpt : Option String → String → String
  | none, d => d
  | some s, d => if s = "" then d else s

/-- Word character in the sense of the regex `\b` boundary (ASCII
approximation of `\w`): letter, digit or underscore. -/
def isWordChar (c : Char) : Bool :=
  c.isAlphanum || c == '_'

/-- Boundary condition to the left of a match position: start of string,
or the previous character is not a word character. -/
def boundaryBefore : Option Char → Bool
  | none => true
  | some c => !(isWordChar c)

/-- Boundary condition to the right of a match: end of string, or the
next character is not a word character. -/
def boundaryAfter : List Char → Bool
  | [] => true
  | c :: _ => !(isWordChar c)

/-- Drops `w` from the front of `l`, or fails if `l` does not start
with `w`. -/
def dropPrefixChars : List Char → List Char → Option (List Char)
  | [], l => some l
  | _ :: _, [] => none
  | a :: as, b :: bs => if a = b then dropPrefixChars as bs else none

/-- Whole word `w` matches at the current position of `l` (with the
right boundary checked after the match). -/
def matchWordHere (w l : List Char) : Bool :=
  match dropPrefixChars w l with
  | some rest => boundaryAfter rest
  | none => false

/-- Scanner for `re.search` of a whole-word pattern: tries every
position of `l`, tracking the previous character for the left
boundary. -/
def hasWholeWordAux (w : List Char) : Option Char → List Char → Bool
  | prev, [] => boundaryBefore prev && matchWordHere w []
  | prev, c :: rest =>
    (boundaryBefore prev && matchWordHere w (c :: rest)) ||
      hasWholeWordAux w (some c) rest

/-- Embedding of `str.lower` (ASCII) on the character list. -/
def lowerList (s : String) : List Char :=
  s.toList.map Char.toLower

/-- Embedding of `str.lower` returning a string. -/
def lowerStr (s : String) : String :=
  String.mk (lowerList s)

/-- Embedding of `str.strip`: drop whitespace from both ends. -/
def trimList (l : List Char) : List Char :=
  ((l.dropWhile Char.isWhitespace).reverse.dropWhile Char.isWhitespace).reverse

/-- Embedding of `re.search(r"\b<w>\b", s)` for a pattern `w` made of
word characters, as used by `GM_PATTERN` and `GN_PATTERN`. -/
def hasWholeWord (w : String) (s : List Char) : Bool :=
  hasWholeWordAux w.toList none s

/-- Accumulating embedding of `re.findall(r"[a-zA-Z]+", s)`: maximal
runs of ASCII letters. -/
def alphaTokensAux : List Char → List Char → List String
  | cur, [] =>
    match cur with
    | [] => []
    | _ => [String.mk cur.reverse]
  | cur, c :: rest =>
    if c.isAlpha then alphaTokensAux (c :: cur) rest
    else
      match cur with
      | [] => alphaTokensAux [] rest
      | _ => String.mk cur.reverse :: alphaTokensAux [] rest

/-- Embedding of `re.findall(r"[a-zA-Z]+", s)` on a character list. -/
def alphaTokens (l : List Char) : List String :=
  alphaTokensAux [] l

/-- Embedding of `detect_any_gm_gn`: loose whole-word GM/GN detection
on the lowercased text, GM checked before GN. -/
def detect_any_gm_gn (text : Option String) : Option String :=
  if pyFalsy text then none
  else
    let lower := lowerList (text.getD "")
    if hasWholeWord "gm" lower then some "GM"
    else if hasWholeWord "gn" lower then some "GN"
    else none

/-- Embedding of `detect_strict_gm_gn`: pure/short GM/GN detection via
alphabetic tokens of the lowercased, trimmed text, with the token count
capped at 3 and GM taking precedence. -/
def detect_strict_gm_gn (text : Option String) : Option String :=
  if pyFalsy text then none
  else
    let lower := trimList (lowerList (text.getD ""))
    let tokens := alphaTokens lower
    if tokens = [] then none
    else
      let has_gm := tokens.contains "gm"
      let has_gn := tokens.contains "gn"
      if !(has_gm || has_gn) then none
      else if tokens.length ≤ 3 then some (if has_gm then "GM" else "GN")
      else none

/-- Embedding of `classify_gmgn_mode`: strict detection first, then
loose, else the generic result `("none", none)`. -/
def classify_gmgn_mode (text : Option String) : String × Option String :=
  let strict := detect_strict_gm_gn text
  let any_gmgn := detect_any_gm_gn text
  match strict with
  | some s => ("gmgn_pure", some s)
  | none =>
    match any_gmgn with
    | some v => ("gmgn_context", some v)
    | none => ("none", none)

/-- Embedding of `decide_mode`. -/
def decide_mode (text : Option String) : String × Option String :=
  let md := classify_gmgn_mode text
  if md.1 = "gmgn_pure" then ("gmgn_pure", md.2)
  else if md.1 = "gmgn_context" then ("gmgn_context", md.2)
  else ("generic", none)

/-- Reference classifier written from the specification text: strict
check first (literal token `gm` or `gn` among the alphabetic tokens of
the trimmed text, at most 3 tokens, GM before GN), then the loose
word-boundary check (GM before GN), else generic; null or empty text is
generic. -/
def classifyRef (text : Option String) : String × Option String :=
  let s := text.getD ""
  let toks := alphaTokens (trimList (lowerList s))
  if toks.contains "gm" ∧ toks.length ≤ 3 then ("gmgn_pure", some "GM")
  else if toks.contains "gn" ∧ toks.length ≤ 3 then ("gmgn_pure", some "GN")
  else if hasWholeWord "gm" (lowerList s) then ("gmgn_context", some "GM")
  else if hasWholeWord "gn" (lowerList s) then ("gmgn_context", some "GN")
  else ("none", none)

/-- A fetched post, as produced by `parse_tweet_from_article`. -/
structure Post where
  id : String
  text : String
  created_at : Option Int
  has_image : Bool
  username : Option String
  display_name : Option String
deriving DecidableEq, Repr

/-- Configuration values read from the environment. -/
structure Config where
  MIN_TWEET_AGE : Nat
  MAX_TWEET_AGE_MINUTES : Nat
  PER_ACCOUNT_COOLDOWN : Nat
  PAUSE_AFTER : Nat
  STOP_AFTER : Nat
deriving DecidableEq, Repr

/-- Eligibility decision for one post in the filtering loop. -/
inductive Decision where
  | excluded
  | ready
  | waiting (age : Int)
deriving DecidableEq, Repr

/-- An entry of the waiting list: the tweet together with the age
recorded at partition time. -/
structure WaitItem where
  tweet : Post
  age : Int
deriving DecidableEq, Repr

/-- Decision taken by the filtering loop body of `process_cycle`
(lines 775-799) for a single post: duplicate check, missing
`created_at`, the 24-hour cap, the `MAX_TWEET_AGE_MINUTES` cutoff, and
the `MIN_TWEET_AGE` split into ready vs waiting. -/
def eligDecision (cfg : Config) (replied : List String) (now : Int) (t : Post) : Decision :=
  if t.id ∈ replied then Decision.excluded
  else
    match t.created_at with
    | none => Decision.excluded
    | some c =>
      let age_sec : Int := now - c
      if age_sec > 86400 then Decision.excluded
      else if c < now - (cfg.MAX_TWEET_AGE_MINUTES : Int) * 60 then Decision.excluded
      else if (cfg.MIN_TWEET_AGE : Int) ≤ age_sec then Decision.ready
      else Decision.waiting age_sec

/-- The filtering loop of `process_cycle`: partitions the fetched posts
into the `ready` and `waiting` lists, dropping excluded posts, in fetch
order. -/
def partitionPosts (cfg : Config) (replied : List String) (now : Int) : List Post → List Post × List WaitItem
  | [] => ([], [])
  | t :: ts =>
    let rest := partitionPosts cfg replied now ts
    match eligDecision cfg replied now t with
    | Decision.ready => (t :: rest.1, rest.2)
    | Decision.waiting a => (rest.1, ⟨t, a⟩ :: rest.2)
    | Decision.excluded => rest

/-- A value stored in the author history map: either a timestamp that
`datetime.fromisoformat` parses (modelled as seconds), or a string it
rejects with an exception. -/
inductive TSVal where
  | good (t : Int)
  | bad (s : String)
deriving DecidableEq, Repr

/-- Embedding of `datetime.fromisoformat` on a stored value: `none`
models the raised exception. -/
def parseTS : TSVal → Option Int
  | TSVal.good t => some t
  | TSVal.bad _ => none

/-- One persistence write: `save_replied_id`, `save_daily_stats` or
`save_author_history`. -/
inductive PEvent where
  | repliedId (tid : String)
  | stats (count : Nat)
  | authorHist (m : List (String × TSVal))
deriving DecidableEq, Repr

/-- The durable ledger of the bot (the globals `replied_ids`,
`current_day`, `reply_count_today`, `author_last_reply`) together with
the log of persistence writes performed on it. -/
structure BotState where
  replied_ids : List String
  current_day : String
  reply_count_today : Nat
  author_last_reply : List (String × TSVal)
  writes : List PEvent
deriving DecidableEq, Repr

/-- Python dict assignment `m[k] = v` on an association list. -/
def setKey : List (String × TSVal) → String → TSVal → List (String × TSVal)
  | [], k, v => [(k, v)]
  | (k', v') :: rest, k, v =>
    if k' = k then (k, v) :: rest else (k', v') :: setKey rest k v

/-- Embedding of `reset_if_new_day`: when `today` differs from the
stored day, zero the counter, store `today` and persist the stats. -/
def reset_if_new_day (st : BotState) (today : String) : BotState :=
  if today ≠ st.current_day then
    { st with
      reply_count_today := 0
      current_day := today
      writes := st.writes ++ [PEvent.stats 0] }
  else st

/-- The ledger mutation block executed on a successful reply
(`process_cycle` lines 878-883): append the post ID and persist it,
increment the daily count and persist it, set the author key to `now`
and persist the history. -/
def record_reply (st : BotState) (tid author_key : String) (now : Int) : BotState :=
  { st with
    replied_ids := st.replied_ids ++ [tid]
    reply_count_today := st.reply_count_today + 1
    author_last_reply := setKey st.author_last_reply author_key (TSVal.good now)
    writes := st.writes ++
      [PEvent.repliedId tid,
       PEvent.stats (st.reply_count_today + 1),
       PEvent.authorHist (setKey st.author_last_reply author_key (TSVal.good now))] }

/-- The per-account cooldown check of `process_cycle` (lines 826-838):
true only when a stored value for the key exists, parses, and is within
the cooldown window; a parse exception is swallowed. -/
def coolingDown (cd : Nat) (hist : List (String × TSVal)) (key : String) (now : Int) : Bool :=
  match List.lookup key hist with
  | none => false
  | some v =>
    match parseTS v with
    | none => false
    | some last => now - last < (cd : Int)

/-- Result of the external OpenAI call: generated text, or the raised
error that triggers the backoff sleep. -/
inductive GenResult where
  | ok (text : String)
  | genError
deriving DecidableEq, Repr

/-- Outcome of `reply_to_tweet`: the navigation, mandatory like,
composer or send step failed, or the reply was delivered. -/
inductive DeliveryOutcome where
  | navFailed
  | likeFailed
  | composerNotFound
  | sendFailed
  | delivered
deriving DecidableEq, Repr

/-- Boolean returned by `reply_to_tweet`: true only when every step up
to sending succeeded. -/
def reply_to_tweet_result : DeliveryOutcome → Bool
  | DeliveryOutcome.delivered => true
  | _ => false

/-- One invocation of `reply_to_tweet`: the target post, the text
typed, and the returned boolean. -/
structure Attempt where
  tid : String
  text : String
  success : Bool
deriving DecidableEq, Repr

/-- In-cycle state: the ledger plus the ephemeral per-cycle author set
and logs of the external calls (OpenAI invocations, reply attempts and
successful deliveries with their author keys). -/
structure CycleSt where
  bot : BotState
  authors_replied_this_cycle : List String
  genCalls : List String
  attempts : List Attempt
  delivered : List (String × String)
deriving DecidableEq, Repr

/-- Oracle for the external world during the processing of one post:
the wall-clock reads (`nowA` for the cooldown check, `now2` for the
waiting re-evaluation, `nowW` for the history write), the date observed
after `sleep_until_next_day`, the OpenAI result, and the delivery
outcome. -/
structure PostOracle where
  nowA : Int
  now2 : Int
  nowW : Int
  newDay : String
  gen : GenResult
  outcome : DeliveryOutcome
deriving DecidableEq, Repr

/-- Author key derivation: `(username or display_name or
"unknown").lower()` with `None` fields already coerced to `""`. -/
def author_key_of (p : Post) : String :=
  lowerStr (pyOrS (p.username.getD "") (pyOrS (p.display_name.getD "") "unknown"))

/-- The delivery attempt and, on success, the ledger commit and the
per-cycle bookkeeping (`process_cycle` lines 876-893). -/
def deliverAndCommit (o : PostOracle) (st : CycleSt) (p : Post) (author_key reply_text : String) : CycleSt × Bool :=
  let succ := reply_to_tweet_result o.outcome
  let st' := { st with attempts := st.attempts ++ [⟨p.id, reply_text, succ⟩] }
  if succ then
    ({ st' with
       bot := record_reply st'.bot p.id author_key o.nowW
       authors_replied_this_cycle := st'.authors_replied_this_cycle ++ [author_key]
       delivered := st'.delivered ++ [(p.id, author_key)] }, false)
  else (st', false)

/-- The shared per-post body of both processing loops, from the
cooldown check to the delivery attempt: per-account cooldown, per-cycle
author set, mode classification, content selection (a pure greeting
needs no OpenAI call; the contextual and generic modes call OpenAI and
skip the post on `genError`), then `deliverAndCommit`. -/
def processPostBody (cfg : Config) (o : PostOracle) (st : CycleSt) (p : Post) : CycleSt × Bool :=
  let display_name := p.display_name.getD ""
  let author_key := author_key_of p
  if coolingDown cfg.PER_ACCOUNT_COOLDOWN st.bot.author_last_reply author_key o.nowA then
    (st, false)
  else if author_key ∈ st.authors_replied_this_cycle then (st, false)
  else
    let md := decide_mode (some p.text)
    if md.1 = "gmgn_pure" then
      let base := pyOrOpt md.2 "GM"
      let reply_text := if display_name = "" then base else base ++ " " ++ display_name
      deliverAndCommit o st p author_key reply_text
    else if md.1 = "gmgn_context" then
      match o.gen with
      | GenResult.genError => ({ st with genCalls := st.genCalls ++ [p.id] }, false)
      | GenResult.ok rt =>
        deliverAndCommit o { st with genCalls := st.genCalls ++ [p.id] } p author_key rt
    else
      match o.gen with
      | GenResult.genError => ({ st with genCalls := st.genCalls ++ [p.id] }, false)
      | GenResult.ok rt =>
        deliverAndCommit o { st with genCalls := st.genCalls ++ [p.id] } p author_key rt

/-- One iteration of the ready loop (`process_cycle` lines 809-897):
global stop condition first (sleep until the next day, reset, and break
the loop), then the duplicate check, then the shared body.  The boolean
is the `break` flag. -/
def readyStep (cfg : Config) (orc : Post → PostOracle) (st : CycleSt) (p : Post) : CycleSt × Bool :=
  if cfg.STOP_AFTER ≤ st.bot.reply_count_today then
    ({ st with bot := reset_if_new_day st.bot (orc p).newDay }, true)
  else if p.id ∈ st.bot.replied_ids then (st, false)
  else processPostBody cfg (orc p) st p

/-- One iteration of the waiting re-evaluation loop (`process_cycle`
lines 902-1011): stop condition, duplicate check, then the fresh-age
re-checks (missing `created_at`, 24-hour cap, max-age window, minimum
age) before the shared body. -/
def waitingStep (cfg : Config) (orc : Post → PostOracle) (st : CycleSt) (it : WaitItem) : CycleSt × Bool :=
  let p := it.tweet
  let o := orc p
  if cfg.STOP_AFTER ≤ st.bot.reply_count_today then
    ({ st with bot := reset_if_new_day st.bot o.newDay }, true)
  else if p.id ∈ st.bot.replied_ids then (st, false)
  else
    match p.created_at with
    | none => (st, false)
    | some c =>
      let age_now : Int := o.now2 - c
      if age_now > 86400 then (st, false)
      else if c < o.now2 - (cfg.MAX_TWEET_AGE_MINUTES : Int) * 60 then (st, false)
      else if age_now < (cfg.MIN_TWEET_AGE : Int) then (st, false)
      else processPostBody cfg o st p

/-- Runs loop iterations in order, honouring the `break` flag. -/
def foldStop (f : CycleSt → α → CycleSt × Bool) : CycleSt → List α → CycleSt
  | st, [] => st
  | st, x :: xs =>
    match f st x with
    | (st', true) => st'
    | (st', false) => foldStop f st' xs

/-- The ready loop over the partitioned ready list. -/
def runReadyPass (cfg : Config) (orc : Post → PostOracle) (st : CycleSt) (posts : List Post) : CycleSt :=
  foldStop (readyStep cfg orc) st posts

/-- The waiting loop over the partitioned waiting list. -/
def runWaitingPass (cfg : Config) (orc : Post → PostOracle) (st : CycleSt) (items : List WaitItem) : CycleSt :=
  foldStop (waitingStep cfg orc) st items

/-- One cycle of `process_cycle` after the fetch: the day-rollover
check, the partition of the fetched posts, the ready pass, then the
waiting pass; the per-cycle author set starts empty. -/
def process_cycle (cfg : Config) (orc : Post → PostOracle) (bot : BotState) (cycleDay : String) (posts : List Post) (now : Int) : CycleSt :=
  let bot1 := reset_if_new_day bot cycleDay
  let pr := partitionPosts cfg bot1.replied_ids now posts
  let st0 : CycleSt :=
    { bot := bot1
      authors_replied_this_cycle := []
      genCalls := []
      attempts := []
      delivered := [] }
  let st1 := runReadyPass cfg orc st0 pr.1
  runWaitingPass cfg orc st1 pr.2

/-- Concrete configuration for witnesses (the .env defaults). -/
def cfgW : Config :=
  { MIN_TWEET_AGE := 180
    MAX_TWEET_AGE_MINUTES := 60
    PER_ACCOUNT_COOLDOWN := 1800
    PAUSE_AFTER := 500
    STOP_AFTER := 1000 }

/-- Concrete ledger for witnesses. -/
def botW : BotState :=
  { replied_ids := []
    current_day := "2026-10-11"
    reply_count_today := 0
    author_last_reply := []
    writes := [] }

/-- Concrete cycle state for witnesses. -/
def stW : CycleSt :=
  { bot := botW
    authors_replied_this_cycle := []
    genCalls := []
    attempts := []
    delivered := [] }

/-- Concrete pure-greeting post for witnesses. -/
def pW : Post :=
  { id := "t1"
    text := "gm ct"
    created_at := some 1000
    has_image := false
    username := some "@Alice"
    display_name := some "Alice" }

/-- Concrete waiting item for witnesses. -/
def itW : WaitItem := { tweet := pW, age := 30 }

/-- Concrete oracle for witnesses: generation succeeds, delivery
succeeds. -/
def orcW : Post → PostOracle := fun _ =>
  { nowA := 5000
    now2 := 1200
    nowW := 5100
    newDay := "2026-10-12"
    gen := GenResult.ok "nice post indeed"
    outcome := DeliveryOutcome.delivered }

/-- Concrete ready-pass post placed in a different window for the C1
witness. -/
def pW2 : Post :=
  { id := "t2"
    text := "hello world"
    created_at := some 9000
    has_image := false
    username := none
    display_name := some "Bob"
    }

/-- Concrete state at the daily stop limit for the C6 witness. -/
def stStopW : CycleSt :=
  { bot :=
      { replied_ids := []
        current_day := "2026-10-11"
        reply_count_today := 1000
        author_last_reply := []
        writes := [] }
    authors_replied_this_cycle := []
    genCalls := []
    attempts := []
    delivered := [] }

/-- Concrete state with an unparseable stored author timestamp for the
C9 witness. -/
def stBadW : CycleSt :=
  { bot :=
      { replied_ids := []
        current_day := "2026-10-11"
        reply_count_today := 0
        author_last_reply := [("@alice", TSVal.bad "not a timestamp")]
        writes := [] }
    authors_replied_this_cycle := []
    genCalls := []
    attempts := []
    delivered := [] }

/-- Concrete post with no creation timestamp for the C10 witness. -/
def pNoneW : Post :=
  { id := "t3"
    text := "hi"
    created_at := none
    has_image := false
    username := none
    display_name := none }

/-- Concrete waiting item with no creation timestamp for the C10
witness. -/
def itNoneW : WaitItem := { tweet := pNoneW, age := 0 }

/-- The reply text of the pure-greeting branch (`process_cycle` lines
848-855): the detected kind, then the display name when present. -/
def pureReplyText (p : Post) : String :=
  if p.display_name.getD "" = "" then pyOrOpt (decide_mode (some p.text)).2 "GM"
  else pyOrOpt (decide_mode (some p.text)).2 "GM" ++ " " ++ p.display_name.getD ""

/-- The four possible effects of the shared per-post body on the cycle
state: skip untouched, a failed OpenAI call, a failed delivery attempt,
or a committed successful reply. -/
def BodyCases (o : PostOracle) (st : CycleSt) (p : Post) (r : CycleSt × Bool) : Prop :=
  (r.1 = st ∧ r.2 = false) ∨
  (r.1 = { st with genCalls := st.genCalls ++ [p.id] } ∧ r.2 = false) ∨
  (∃ rt g, (g = st.genCalls ∨ g = st.genCalls ++ [p.id]) ∧
    r.1 = { st with genCalls := g, attempts := st.attempts ++ [⟨p.id, rt, false⟩] } ∧
    r.2 = false) ∨
  (∃ rt g, (g = st.genCalls ∨ g = st.genCalls ++ [p.id]) ∧
    reply_to_tweet_result o.outcome = true ∧
    author_key_of p ∉ st.authors_replied_this_cycle ∧
    r.1 =
      { st with
        bot := record_reply st.bot p.id (author_key_of p) o.nowW
        genCalls := g
        attempts := st.attempts ++ [⟨p.id, rt, true⟩]
        authors_replied_this_cycle := st.authors_replied_this_cycle ++ [author_key_of p]
        delivered := st.delivered ++ [(p.id, author_key_of p)] } ∧
    r.2 = false)

/-- Per-cycle author uniqueness invariant used for C4: every delivered
author key is in the per-cycle set, and delivered author keys are
pairwise distinct. -/
def keysInv (st : CycleSt) : Prop :=
  (∀ pr ∈ st.delivered, pr.2 ∈ st.authors_replied_this_cycle) ∧
    (st.delivered.map Prod.snd).Nodup

/-- Quota invariant used for C6: the in-memory daily count is at most
`stop`, and every persisted stats write either predates the cycle
(belongs to `w0`) or records a count of at most `stop`. -/
def statsBounded (stop : Nat) (w0 : List PEvent) (st : CycleSt) : Prop :=
  st.bot.reply_count_today ≤ stop ∧
    ∀ e ∈ st.bot.writes, e ∈ w0 ∨ ∀ n, e = PEvent.stats n → n ≤ stop

/-! ## Theorems -/

/-- C2: the mode classifier agrees with the reference definition from
the specification: strict pure-greeting first (literal token `gm` or
`gn` among at most 3 alphabetic tokens of the trimmed text, GM before
GN), then the loose whole-word check (GM before GN), else generic,
including for null or empty text; when the strict check matches the
loose check is irrelevant. -/
theorem claim_C2 (text : Option String) : classify_gmgn_mode text = classifyRef text := by
  cases text with
  | none => decide
  | some s =>
    by_cases hs : s = ""
    · subst hs; decide
    · by_cases hnil : alphaTokens (trimList (lowerList s)) = []
      · have hgm : "gm" ∉ alphaTokens (trimList (lowerList s)) := by simp [hnil]
        have hgn : "gn" ∉ alphaTokens (trimList (lowerList s)) := by simp [hnil]
        cases hwgm : hasWholeWord "gm" (lowerList s) <;>
          cases hwgn : hasWholeWord "gn" (lowerList s) <;>
            simp [classify_gmgn_mode, detect_strict_gm_gn, detect_any_gm_gn,
              classifyRef, pyFalsy, hs, hnil, hgm, hgn, hwgm, hwgn]
      · by_cases hgm : "gm" ∈ alphaTokens (trimList (lowerList s)) <;>
          by_cases hgn : "gn" ∈ alphaTokens (trimList (lowerList s)) <;>
            by_cases hlen : (alphaTokens (trimList (lowerList s))).length ≤ 3 <;>
              cases hwgm : hasWholeWord "gm" (lowerList s) <;>
                cases hwgn : hasWholeWord "gn" (lowerList s) <;>
                  simp [classify_gmgn_mode, detect_strict_gm_gn, detect_any_gm_gn,
                    classifyRef, pyFalsy, hs, hnil, hgm, hgn, hlen, hwgm, hwgn]

/-- A post lands in the ready list exactly when it is among the fetched
posts and the filtering loop decides `ready` for it. -/
theorem mem_partition_ready (cfg : Config) (replied : List String) (now : Int) (posts : List Post) (t : Post) :
    t ∈ (partitionPosts cfg replied now posts).1 ↔
      t ∈ posts ∧ eligDecision cfg replied now t = Decision.ready := by
  induction posts with
  | nil => simp [partitionPosts]
  | cons a ts ih =>
    simp only [partitionPosts]
    cases h : eligDecision cfg replied now a with
    | excluded =>
      rw [ih]
      constructor
      · rintro ⟨h1, h2⟩
        exact ⟨List.mem_cons_of_mem _ h1, h2⟩
      · rintro ⟨h1, h2⟩
        rcases List.mem_cons.mp h1 with rfl | h1
        · rw [h] at h2; cases h2
        · exact ⟨h1, h2⟩
    | ready =>
      constructor
      · intro h1
        rcases List.mem_cons.mp h1 with rfl | h1
        · exact ⟨List.mem_cons_self _ _, h⟩
        · rcases ih.mp h1 with ⟨h2, h3⟩
          exact ⟨List.mem_cons_of_mem _ h2, h3⟩
      · rintro ⟨h1, h2⟩
        rcases List.mem_cons.mp h1 with rfl | h1
        · exact List.mem_cons_self _ _
        · exact List.mem_cons_of_mem _ (ih.mpr ⟨h1, h2⟩)
    | waiting ag =>
      rw [ih]
      constructor
      · rintro ⟨h1, h2⟩
        exact ⟨List.mem_cons_of_mem _ h1, h2⟩
      · rintro ⟨h1, h2⟩
        rcases List.mem_cons.mp h1 with rfl | h1
        · rw [h] at h2; cases h2
        · exact ⟨h1, h2⟩

/-- A waiting item lands in the waiting list exactly when its tweet is
among the fetched posts and the filtering loop decides `waiting` for it
with the recorded age. -/
theorem mem_partition_waiting (cfg : Config) (replied : List String) (now : Int) (posts : List Post) (w : WaitItem) :
    w ∈ (partitionPosts cfg replied now posts).2 ↔
      w.tweet ∈ posts ∧ eligDecision cfg replied now w.tweet = Decision.waiting w.age := by
  induction posts with
  | nil => simp [partitionPosts]
  | cons a ts ih =>
    simp only [partitionPosts]
    cases h : eligDecision cfg replied now a with
    | excluded =>
      rw [ih]
      constructor
      · rintro ⟨h1, h2⟩
        exact ⟨List.mem_cons_of_mem _ h1, h2⟩
      · rintro ⟨h1, h2⟩
        rcases List.mem_cons.mp h1 with h1 | h1
        · rw [h1] at h2; rw [h] at h2; cases h2
        · exact ⟨h1, h2⟩
    | ready =>
      rw [ih]
      constructor
      · rintro ⟨h1, h2⟩
        exact ⟨List.mem_cons_of_mem _ h1, h2⟩
      · rintro ⟨h1, h2⟩
        rcases List.mem_cons.mp h1 with h1 | h1
        · rw [h1] at h2; rw [h] at h2; cases h2
        · exact ⟨h1, h2⟩
    | waiting ag =>
      constructor
      · intro h1
        rcases List.mem_cons.mp h1 with rfl | h1
        · exact ⟨List.mem_cons_self _ _, h⟩
        · rcases ih.mp h1 with ⟨h2, h3⟩
          exact ⟨List.mem_cons_of_mem _ h2, h3⟩
      · rintro ⟨h1, h2⟩
        rcases List.mem_cons.mp h1 with h1 | h1
        · have : w = ⟨a, ag⟩ := by
            cases w
            simp only at h1
            simp only [h1] at h2 ⊢
            rw [h] at h2
            cases h2
            rfl
          rw [this]
          exact List.mem_cons_self _ _
        · exact List.mem_cons_of_mem _ (ih.mpr ⟨h1, h2⟩)

/-- C1: the eligibility partition applies its rules in order for every
fetched post with a creation timestamp: an ID already in the processed
set excludes the post; an age above 24 hours excludes it; a
`created_at` earlier than `now` minus `MAX_TWEET_AGE_MINUTES` excludes
it (both staleness cutoffs independently); an age below
`MIN_TWEET_AGE` puts it on the waiting list; everything else lands on
the ready list. -/
theorem claim_C1 (cfg : Config) (replied : List String) (now : Int) (posts : List Post) (t : Post) (c : Int) (hmem : t ∈ posts) (hc : t.created_at = some c) :
    (t.id ∈ replied →
      t ∉ (partitionPosts cfg replied now posts).1 ∧
        ∀ a, (⟨t, a⟩ : WaitItem) ∉ (partitionPosts cfg replied now posts).2) ∧
    (now - c > 86400 →
      t ∉ (partitionPosts cfg replied now posts).1 ∧
        ∀ a, (⟨t, a⟩ : WaitItem) ∉ (partitionPosts cfg replied now posts).2) ∧
    (c < now - (cfg.MAX_TWEET_AGE_MINUTES : Int) * 60 →
      t ∉ (partitionPosts cfg replied now posts).1 ∧
        ∀ a, (⟨t, a⟩ : WaitItem) ∉ (partitionPosts cfg replied now posts).2) ∧
    (t.id ∉ replied → now - c ≤ 86400 →
      now - (cfg.MAX_TWEET_AGE_MINUTES : Int) * 60 ≤ c →
      now - c < (cfg.MIN_TWEET_AGE : Int) →
      (⟨t, now - c⟩ : WaitItem) ∈ (partitionPosts cfg replied now posts).2 ∧
        t ∉ (partitionPosts cfg replied now posts).1) ∧
    (t.id ∉ replied → now - c ≤ 86400 →
      now - (cfg.MAX_TWEET_AGE_MINUTES : Int) * 60 ≤ c →
      (cfg.MIN_TWEET_AGE : Int) ≤ now - c →
      t ∈ (partitionPosts cfg replied now posts).1) := by
  refine ⟨?_, ?_, ?_, ?_, ?_⟩
  · intro hid
    have hd : eligDecision cfg replied now t = Decision.excluded := by
      simp [eligDecision, hid]
    constructor
    · intro hr
      have := (mem_partition_ready cfg replied now posts t).mp hr
      rw [hd] at this
      cases this.2
    · intro a hw
      have := (mem_partition_waiting cfg replied now posts ⟨t, a⟩).mp hw
      rw [hd] at this
      cases this.2
  · intro h24
    by_cases hid : t.id ∈ replied
    · have hd : eligDecision cfg replied now t = Decision.excluded := by
        simp [eligDecision, hid]
      constructor
      · intro hr
        have := (mem_partition_ready cfg replied now posts t).mp hr
        rw [hd] at this
        cases this.2
      · intro a hw
        have := (mem_partition_waiting cfg replied now posts ⟨t, a⟩).mp hw
        rw [hd] at this
        cases this.2
    · have hd : eligDecision cfg replied now t = Decision.excluded := by
        rw [eligDecision, if_neg hid, hc]
        simp only
        rw [if_pos h24]
      constructor
      · intro hr
        have := (mem_partition_ready cfg replied now posts t).mp hr
        rw [hd] at this
        cases this.2
      · intro a hw
        have := (mem_partition_waiting cfg replied now posts ⟨t, a⟩).mp hw
        rw [hd] at this
        cases this.2
  · intro hmax
    by_cases hid : t.id ∈ replied
    · have hd : eligDecision cfg replied now t = Decision.excluded := by
        simp [eligDecision, hid]
      constructor
      · intro hr
        have := (mem_partition_ready cfg replied now posts t).mp hr
        rw [hd] at this
        cases this.2
      · intro a hw
        have := (mem_partition_waiting cfg replied now posts ⟨t, a⟩).mp hw
        rw [hd] at this
        cases this.2
    · have hd : eligDecision cfg replied now t = Decision.excluded := by
        rw [eligDecision, if_neg hid, hc]
        simp only
        by_cases h24 : now - c > 86400
        · rw [if_pos h24]
        · rw [if_neg h24, if_pos hmax]
      constructor
      · intro hr
        have := (mem_partition_ready cfg replied now posts t).mp hr
        rw [hd] at this
        cases this.2
      · intro a hw
        have := (mem_partition_waiting cfg replied now posts ⟨t, a⟩).mp hw
        rw [hd] at this
        cases this.2
  · intro hid h24 hmax hmin
    have hd : eligDecision cfg replied now t = Decision.waiting (now - c) := by
      rw [eligDecision, if_neg hid, hc]
      simp only
      rw [if_neg (by omega), if_neg (by omega), if_neg (by omega)]
    constructor
    · exact (mem_partition_waiting cfg replied now posts ⟨t, now - c⟩).mpr ⟨hmem, hd⟩
    · intro hr
      have := (mem_partition_ready cfg replied now posts t).mp hr
      rw [hd] at this
      cases this.2
  · intro hid h24 hmax hmin
    have hd : eligDecision cfg replied now t = Decision.ready := by
      rw [eligDecision, if_neg hid, hc]
      simp only
      rw [if_neg (by omega), if_neg (by omega), if_pos (by omega)]
    exact (mem_partition_ready cfg replied now posts t).mpr ⟨hmem, hd⟩

/-- Witness for C1: a 1000-second-old post with no earlier reply, at
the default configuration, lands on the ready list. -/
theorem claim_C1_witness : pW2 ∈ (partitionPosts cfgW [] 10000 [pW2]).1 :=
  (claim_C1 cfgW [] 10000 [pW2] pW2 9000 (by decide) (by decide)).2.2.2.2
    (by decide) (by decide) (by decide) (by decide)

/-- C8: on a new day, `reset_if_new_day` zeroes the daily count, stores
the new date and persists the stats while leaving the processed-ID set
and the author map untouched; on the same day it changes nothing; and
composed after `record_reply` it zeroes the count while keeping the
recorded post ID and author timestamp. -/
theorem claim_C8 (st : BotState) (today tid key : String) (now : Int) :
    (today ≠ st.current_day →
      (reset_if_new_day st today).reply_count_today = 0 ∧
        (reset_if_new_day st today).current_day = today ∧
        (reset_if_new_day st today).writes = st.writes ++ [PEvent.stats 0] ∧
        (reset_if_new_day st today).replied_ids = st.replied_ids ∧
        (reset_if_new_day st today).author_last_reply = st.author_last_reply) ∧
    (today = st.current_day → reset_if_new_day st today = st) ∧
    (today ≠ st.current_day →
      (reset_if_new_day (record_reply st tid key now) today).reply_count_today = 0 ∧
        (reset_if_new_day (record_reply st tid key now) today).replied_ids =
          st.replied_ids ++ [tid] ∧
        (reset_if_new_day (record_reply st tid key now) today).author_last_reply =
          setKey st.author_last_reply key (TSVal.good now)) := by
  refine ⟨?_, ?_, ?_⟩
  · intro h
    rw [reset_if_new_day, if_pos h]
    exact ⟨rfl, rfl, rfl, rfl, rfl⟩
  · intro h
    rw [reset_if_new_day, if_neg (by simp [h])]
  · intro h
    have h' : today ≠ (record_reply st tid key now).current_day := by
      simpa [record_reply] using h
    rw [reset_if_new_day, if_pos h']
    exact ⟨rfl, rfl, rfl⟩

/-- Witness for C8: resetting on the next day zeroes the count. -/
theorem claim_C8_witness :
    (reset_if_new_day botW "2026-10-12").reply_count_today = 0 ∧
      (reset_if_new_day (record_reply botW "t1" "@alice" 5100) "2026-10-12").replied_ids = ["t1"] := by
  have h := claim_C8 botW "2026-10-12" "t1" "@alice" 5100
  exact ⟨(h.1 (by decide)).1, ((h.2.2 (by decide)).2.1).trans (by decide)⟩

/-- C10: a fetched post with no `created_at` is dropped silently: the
partition places it on neither list, and the waiting-list re-evaluation
skips it leaving the state unchanged. -/
theorem claim_C10 (cfg : Config) (replied : List String) (now : Int) (posts : List Post) (t : Post) (orc : Post → PostOracle) (st : CycleSt) (it : WaitItem) (hc : t.created_at = none) (hc2 : it.tweet.created_at = none) :
    (t ∉ (partitionPosts cfg replied now posts).1 ∧
      ∀ a, (⟨t, a⟩ : WaitItem) ∉ (partitionPosts cfg replied now posts).2) ∧
    (st.bot.reply_count_today < cfg.STOP_AFTER →
      waitingStep cfg orc st it = (st, false)) := by
  have hd : eligDecision cfg replied now t = Decision.excluded := by
    rw [eligDecision]
    by_cases hid : t.id ∈ replied
    · rw [if_pos hid]
    · rw [if_neg hid, hc]
  refine ⟨⟨?_, ?_⟩, ?_⟩
  · intro hr
    have := (mem_partition_ready cfg replied now posts t).mp hr
    rw [hd] at this
    cases this.2
  · intro a hw
    have := (mem_partition_waiting cfg replied now posts ⟨t, a⟩).mp hw
    rw [hd] at this
    cases this.2
  · intro hstop
    rw [waitingStep]
    simp only
    rw [if_neg (by omega)]
    by_cases hid : it.tweet.id ∈ st.bot.replied_ids
    · rw [if_pos hid]
    · rw [if_neg hid, hc2]

/-- Witness for C10: the timestampless post is skipped by the waiting
re-evaluation with the state unchanged. -/
theorem claim_C10_witness : waitingStep cfgW orcW stW itNoneW = (stW, false) :=
  (claim_C10 cfgW [] 10000 [pNoneW] pNoneW orcW stW itNoneW (by decide) (by decide)).2
    (by decide)

/-- Case analysis of the shared per-post body: it either skips the post
untouched, records a failed OpenAI call, records a failed delivery
attempt, or commits the ledger after a successful delivery. -/
theorem processPostBody_cases (cfg : Config) (o : PostOracle) (st : CycleSt) (p : Post) :
    BodyCases o st p (processPostBody cfg o st p) := by
  unfold BodyCases
  by_cases hcool : coolingDown cfg.PER_ACCOUNT_COOLDOWN st.bot.author_last_reply (author_key_of p) o.nowA = true
  · left
    simp [processPostBody, hcool]
  · by_cases hmem : author_key_of p ∈ st.authors_replied_this_cycle
    · left
      simp [processPostBody, hcool, hmem]
    · by_cases h3 : (decide_mode (some p.text)).1 = "gmgn_pure"
      · cases hsucc : reply_to_tweet_result o.outcome
        · right; right; left
          exact ⟨pureReplyText p, st.genCalls, Or.inl rfl,
            by simp [processPostBody, deliverAndCommit, pureReplyText, hcool, hmem, h3, hsucc],
            by simp [processPostBody, deliverAndCommit, hcool, hmem, h3, hsucc]⟩
        · right; right; right
          exact ⟨pureReplyText p, st.genCalls, Or.inl rfl, rfl, hmem,
            by simp [processPostBody, deliverAndCommit, pureReplyText, hcool, hmem, h3, hsucc],
            by simp [processPostBody, deliverAndCommit, hcool, hmem, h3, hsucc]⟩
      · by_cases h4 : (decide_mode (some p.text)).1 = "gmgn_context"
        · cases hgen : o.gen with
          | genError =>
            right; left
            simp [processPostBody, hcool, hmem, h3, h4, hgen]
          | ok rt =>
            cases hsucc : reply_to_tweet_result o.outcome
            · right; right; left
              exact ⟨rt, st.genCalls ++ [p.id], Or.inr rfl,
                by simp [processPostBody, deliverAndCommit, hcool, hmem, h3, h4, hgen, hsucc],
                by simp [processPostBody, deliverAndCommit, hcool, hmem, h3, h4, hgen, hsucc]⟩
            · right; right; right
              exact ⟨rt, st.genCalls ++ [p.id], Or.inr rfl, rfl, hmem,
                by simp [processPostBody, deliverAndCommit, hcool, hmem, h3, h4, hgen, hsucc],
                by simp [processPostBody, deliverAndCommit, hcool, hmem, h3, h4, hgen, hsucc]⟩
        · cases hgen : o.gen with
          | genError =>
            right; left
            simp [processPostBody, hcool, hmem, h3, h4, hgen]
          | ok rt =>
            cases hsucc : reply_to_tweet_result o.outcome
            · right; right; left
              exact ⟨rt, st.genCalls ++ [p.id], Or.inr rfl,
                by simp [processPostBody, deliverAndCommit, hcool, hmem, h3, h4, hgen, hsucc],
                by simp [processPostBody, deliverAndCommit, hcool, hmem, h3, h4, hgen, hsucc]⟩
            · right; right; right
              exact ⟨rt, st.genCalls ++ [p.id], Or.inr rfl, rfl, hmem,
                by simp [processPostBody, deliverAndCommit, hcool, hmem, h3, h4, hgen, hsucc],
                by simp [processPostBody, deliverAndCommit, hcool, hmem, h3, h4, hgen, hsucc]⟩

/-- Below the stop limit, the ready-loop iteration is either a pure
skip or the shared per-post body. -/
theorem readyStep_eq_body (cfg : Config) (orc : Post → PostOracle) (st : CycleSt) (p : Post) (h : st.bot.reply_count_today < cfg.STOP_AFTER) :
    readyStep cfg orc st p = (st, false) ∨
      readyStep cfg orc st p = processPostBody cfg (orc p) st p := by
  rw [readyStep, if_neg (by omega)]
  by_cases hid : p.id ∈ st.bot.replied_ids
  · rw [if_pos hid]; exact Or.inl rfl
  · rw [if_neg hid]; exact Or.inr rfl

/-- Below the stop limit, the waiting-loop iteration is either a pure
skip or the shared per-post body. -/
theorem waitingStep_eq_body (cfg : Config) (orc : Post → PostOracle) (st : CycleSt) (it : WaitItem) (h : st.bot.reply_count_today < cfg.STOP_AFTER) :
    waitingStep cfg orc st it = (st, false) ∨
      waitingStep cfg orc st it = processPostBody cfg (orc it.tweet) st it.tweet := by
  rw [waitingStep]
  simp only
  rw [if_neg (by omega)]
  by_cases hid : it.tweet.id ∈ st.bot.replied_ids
  · rw [if_pos hid]; exact Or.inl rfl
  · rw [if_neg hid]
    cases hca : it.tweet.created_at with
    | none => exact Or.inl rfl
    | some c =>
      dsimp only
      by_cases h24 : (orc it.tweet).now2 - c > 86400
      · rw [if_pos h24]; exact Or.inl rfl
      · rw [if_neg h24]
        by_cases hmax : c < (orc it.tweet).now2 - (cfg.MAX_TWEET_AGE_MINUTES : Int) * 60
        · rw [if_pos hmax]; exact Or.inl rfl
        · rw [if_neg hmax]
          by_cases hmin : (orc it.tweet).now2 - c < (cfg.MIN_TWEET_AGE : Int)
          · rw [if_pos hmin]; exact Or.inl rfl
          · rw [if_neg hmin]; exact Or.inr rfl

/-- A step that is a pure skip satisfies the body case analysis. -/
theorem bodyCases_of_skip (o : PostOracle) (st : CycleSt) (p : Post) :
    BodyCases o st p (st, false) :=
  Or.inl ⟨rfl, rfl⟩

/-- Below the stop limit, the ready-loop iteration satisfies the body
case analysis. -/
theorem readyStep_cases (cfg : Config) (orc : Post → PostOracle) (st : CycleSt) (p : Post) (h : st.bot.reply_count_today < cfg.STOP_AFTER) :
    BodyCases (orc p) st p (readyStep cfg orc st p) := by
  rcases readyStep_eq_body cfg orc st p h with heq | heq
  · rw [heq]; exact bodyCases_of_skip _ _ _
  · rw [heq]; exact processPostBody_cases cfg (orc p) st p

/-- Below the stop limit, the waiting-loop iteration satisfies the body
case analysis. -/
theorem waitingStep_cases (cfg : Config) (orc : Post → PostOracle) (st : CycleSt) (it : WaitItem) (h : st.bot.reply_count_today < cfg.STOP_AFTER) :
    BodyCases (orc it.tweet) st it.tweet (waitingStep cfg orc st it) := by
  rcases waitingStep_eq_body cfg orc st it h with heq | heq
  · rw [heq]; exact bodyCases_of_skip _ _ _
  · rw [heq]; exact processPostBody_cases cfg (orc it.tweet) st it.tweet

/-- From the body case analysis: the ledger is committed exactly when a
successful delivery attempt for the post was appended, and without one
the ledger is untouched. -/
theorem commit_iff_of_bodyCases (o : PostOracle) (st : CycleSt) (p : Post) (r : CycleSt × Bool) (h : BodyCases o st p r) :
    (r.1.bot = record_reply st.bot p.id (author_key_of p) o.nowW ↔
      ∃ rt, r.1.attempts = st.attempts ++ [⟨p.id, rt, true⟩]) ∧
    ((¬ ∃ rt, r.1.attempts = st.attempts ++ [⟨p.id, rt, true⟩]) → r.1.bot = st.bot) := by
  have hrec : ∀ rt', st.bot ≠ record_reply st.bot p.id rt' o.nowW := by
    intro rt' heq
    have := congrArg BotState.replied_ids heq
    simp [record_reply] at this
  rcases h with ⟨h1, _⟩ | ⟨h1, _⟩ | ⟨rt, g, hg, h1, _⟩ | ⟨rt, g, hg, hsucc, hmem, h1, _⟩
  · constructor
    · rw [h1]
      constructor
      · intro heq
        exact absurd heq (hrec _)
      · rintro ⟨rt, hat⟩
        simp at hat
    · intro _
      rw [h1]
  · constructor
    · rw [h1]
      constructor
      · intro heq
        exact absurd heq (hrec _)
      · rintro ⟨rt, hat⟩
        simp at hat
    · intro _
      rw [h1]
  · constructor
    · rw [h1]
      constructor
      · intro heq
        exact absurd heq (hrec _)
      · rintro ⟨rt', hat⟩
        simp at hat
    · intro _
      rw [h1]
  · constructor
    · rw [h1]
      exact ⟨fun _ => ⟨rt, rfl⟩, fun _ => rfl⟩
    · intro hno
      exact absurd ⟨rt, by rw [h1]⟩ hno

/-- C3: for a candidate post in either pass (below the stop limit), the
durable ledger mutations of `record_reply` happen exactly when the
delivery attempt for that post reports success; on an engagement/like,
generation or delivery failure the post is skipped and the processed
set, daily count and author map are left unchanged. -/
theorem claim_C3 (cfg : Config) (orc : Post → PostOracle) (st : CycleSt) (p : Post) (it : WaitItem) (hstop : st.bot.reply_count_today < cfg.STOP_AFTER) :
    ((readyStep cfg orc st p).1.bot =
        record_reply st.bot p.id (author_key_of p) (orc p).nowW ↔
      ∃ rt, (readyStep cfg orc st p).1.attempts = st.attempts ++ [⟨p.id, rt, true⟩]) ∧
    ((¬ ∃ rt, (readyStep cfg orc st p).1.attempts = st.attempts ++ [⟨p.id, rt, true⟩]) →
      (readyStep cfg orc st p).1.bot = st.bot) ∧
    ((waitingStep cfg orc st it).1.bot =
        record_reply st.bot it.tweet.id (author_key_of it.tweet) (orc it.tweet).nowW ↔
      ∃ rt, (waitingStep cfg orc st it).1.attempts =
        st.attempts ++ [⟨it.tweet.id, rt, true⟩]) ∧
    ((¬ ∃ rt, (waitingStep cfg orc st it).1.attempts =
        st.attempts ++ [⟨it.tweet.id, rt, true⟩]) →
      (waitingStep cfg orc st it).1.bot = st.bot) := by
  have hr := commit_iff_of_bodyCases (orc p) st p _ (readyStep_cases cfg orc st p hstop)
  have hw := commit_iff_of_bodyCases (orc it.tweet) st it.tweet _
    (waitingStep_cases cfg orc st it hstop)
  exact ⟨hr.1, hr.2, hw.1, hw.2⟩

/-- Witness for C3: at a concrete successful delivery, the ledger
commit equivalence holds for the ready step. -/
theorem claim_C3_witness :
    ((readyStep cfgW orcW stW pW).1.bot =
        record_reply stW.bot pW.id (author_key_of pW) (orcW pW).nowW ↔
      ∃ rt, (readyStep cfgW orcW stW pW).1.attempts = stW.attempts ++ [⟨pW.id, rt, true⟩]) :=
  (claim_C3 cfgW orcW stW pW itW (by decide)).1

/-- A loop invariant preserved by every iteration is preserved by the
whole loop. -/
theorem foldStop_inv {α : Type} (f : CycleSt → α → CycleSt × Bool) (P : CycleSt → Prop) (hstep : ∀ st x, P st → P (f st x).1) :
    ∀ (l : List α) (st : CycleSt), P st → P (foldStop f st l) := by
  intro l
  induction l with
  | nil =>
    intro st h
    simpa [foldStop] using h
  | cons x xs ih =>
    intro st h
    have hx := hstep st x h
    rw [foldStop]
    cases hf : f st x with
    | mk st' b =>
      rw [hf] at hx
      cases b
      · exact ih st' hx
      · exact hx

/-- The body case analysis preserves the per-cycle author
invariant. -/
theorem keysInv_of_bodyCases (o : PostOracle) (st : CycleSt) (p : Post) (r : CycleSt × Bool) (h : BodyCases o st p r) (hinv : keysInv st) : keysInv r.1 := by
  rcases h with ⟨h1, _⟩ | ⟨h1, _⟩ | ⟨rt, g, hg, h1, _⟩ | ⟨rt, g, hg, hsucc, hmem, h1, _⟩
  · rw [h1]; exact hinv
  · rw [h1]; exact hinv
  · rw [h1]; exact hinv
  · rw [h1]
    constructor
    · intro pr hpr
      rcases List.mem_append.mp hpr with hpr | hpr
      · exact List.mem_append_left _ (hinv.1 pr hpr)
      · rw [List.mem_singleton.mp hpr]
        exact List.mem_append_right _ (List.mem_singleton.mpr rfl)
    · have hkey : author_key_of p ∉ st.delivered.map Prod.snd := by
        intro hk
        rcases List.mem_map.mp hk with ⟨pr, hpr, hpr2⟩
        exact hmem (hpr2 ▸ hinv.1 pr hpr)
      simp only [List.map_append, List.map_cons, List.map_nil]
      rw [List.nodup_append]
      exact ⟨hinv.2, List.nodup_singleton _, by
        intro a ha hb
        rw [List.mem_singleton.mp hb] at ha
        exact hkey ha⟩

/-- The ready-loop iteration preserves the per-cycle author
invariant. -/
theorem readyStep_keysInv (cfg : Config) (orc : Post → PostOracle) (st : CycleSt) (p : Post) (hinv : keysInv st) : keysInv (readyStep cfg orc st p).1 := by
  by_cases hstop : cfg.STOP_AFTER ≤ st.bot.reply_count_today
  · rw [readyStep, if_pos hstop]
    exact hinv
  · exact keysInv_of_bodyCases (orc p) st p _
      (readyStep_cases cfg orc st p (by omega)) hinv

/-- The waiting-loop iteration preserves the per-cycle author
invariant. -/
theorem waitingStep_keysInv (cfg : Config) (orc : Post → PostOracle) (st : CycleSt) (it : WaitItem) (hinv : keysInv st) : keysInv (waitingStep cfg orc st it).1 := by
  by_cases hstop : cfg.STOP_AFTER ≤ st.bot.reply_count_today
  · rw [waitingStep]
    simp only
    rw [if_pos hstop]
    exact hinv
  · exact keysInv_of_bodyCases (orc it.tweet) st it.tweet _
      (waitingStep_cases cfg orc st it (by omega)) hinv

/-- C4: within a single cycle at most one reply is delivered per author
key: the per-cycle author set starts empty, is extended on each
successful reply, and later posts with the same key are skipped in
either pass, so the author keys of the deliveries of one cycle are
pairwise distinct. -/
theorem claim_C4 (cfg : Config) (orc : Post → PostOracle) (bot : BotState) (cycleDay : String) (posts : List Post) (now : Int) :
    ((process_cycle cfg orc bot cycleDay posts now).delivered.map Prod.snd).Nodup := by
  have h0 : keysInv
      { bot := reset_if_new_day bot cycleDay
        authors_replied_this_cycle := []
        genCalls := []
        attempts := []
        delivered := [] } := by
    constructor
    · intro pr hpr
      cases hpr
    · exact List.nodup_nil
  have h1 := foldStop_inv (readyStep cfg orc) keysInv
    (fun st x h => readyStep_keysInv cfg orc st x h)
    (partitionPosts cfg (reset_if_new_day bot cycleDay).replied_ids now posts).1 _ h0
  have h2 := foldStop_inv (waitingStep cfg orc) keysInv
    (fun st x h => waitingStep_keysInv cfg orc st x h)
    (partitionPosts cfg (reset_if_new_day bot cycleDay).replied_ids now posts).2 _ h1
  exact h2.2

/-- Swapping the ledger for its day-rollover reset preserves the quota
invariant. -/
theorem statsBounded_reset (stop : Nat) (w0 : List PEvent) (st : CycleSt) (d : String) (h : statsBounded stop w0 st) : statsBounded stop w0 { st with bot := reset_if_new_day st.bot d } := by
  unfold statsBounded at h ⊢
  rw [reset_if_new_day]
  by_cases hd : d ≠ st.bot.current_day
  · rw [if_pos hd]
    refine ⟨Nat.zero_le _, ?_⟩
    intro e he
    rcases List.mem_append.mp he with he | he
    · exact h.2 e he
    · rw [List.mem_singleton.mp he]
      right
      intro n hn
      cases hn
      exact Nat.zero_le _
  · rw [if_neg hd]
    exact h

/-- The body case analysis preserves the quota invariant when the count
is still below the limit. -/
theorem statsBounded_of_bodyCases (stop : Nat) (w0 : List PEvent) (o : PostOracle) (st : CycleSt) (p : Post) (r : CycleSt × Bool) (hb : BodyCases o st p r) (hlt : st.bot.reply_count_today < stop) (h : statsBounded stop w0 st) : statsBounded stop w0 r.1 := by
  rcases hb with ⟨h1, _⟩ | ⟨h1, _⟩ | ⟨rt, g, hg, h1, _⟩ | ⟨rt, g, hg, hsucc, hmem, h1, _⟩
  · rw [h1]; exact h
  · rw [h1]; exact h
  · rw [h1]; exact h
  · rw [h1]
    unfold statsBounded at h ⊢
    simp only [record_reply]
    refine ⟨by omega, ?_⟩
    intro e he
    rcases List.mem_append.mp he with he | he
    · exact h.2 e he
    · rcases he with _ | ⟨_, he⟩
      · right
        intro n hn
        cases hn
      · rcases he with _ | ⟨_, he⟩
        · right
          intro n hn
          cases hn
          omega
        · rcases he with _ | ⟨_, he⟩
          · right
            intro n hn
            cases hn
          · cases he

/-- The ready-loop iteration preserves the quota invariant. -/
theorem readyStep_statsBounded (cfg : Config) (w0 : List PEvent) (orc : Post → PostOracle) (st : CycleSt) (p : Post) (h : statsBounded cfg.STOP_AFTER w0 st) : statsBounded cfg.STOP_AFTER w0 (readyStep cfg orc st p).1 := by
  by_cases hstop : cfg.STOP_AFTER ≤ st.bot.reply_count_today
  · rw [readyStep, if_pos hstop]
    exact statsBounded_reset _ _ _ _ h
  · exact statsBounded_of_bodyCases _ _ (orc p) st p _
      (readyStep_cases cfg orc st p (by omega)) (by omega) h

/-- The waiting-loop iteration preserves the quota invariant. -/
theorem waitingStep_statsBounded (cfg : Config) (w0 : List PEvent) (orc : Post → PostOracle) (st : CycleSt) (it : WaitItem) (h : statsBounded cfg.STOP_AFTER w0 st) : statsBounded cfg.STOP_AFTER w0 (waitingStep cfg orc st it).1 := by
  by_cases hstop : cfg.STOP_AFTER ≤ st.bot.reply_count_today
  · rw [waitingStep]
    simp only
    rw [if_pos hstop]
    exact statsBounded_reset _ _ _ _ h
  · exact statsBounded_of_bodyCases _ _ (orc it.tweet) st it.tweet _
      (waitingStep_cases cfg orc st it (by omega)) (by omega) h

/-- C6: whenever the daily count has reached `STOP_AFTER`, each per-post
iteration of either pass stops before doing anything else: it sleeps
until the next day, applies the day reset (zeroing the counter when the
date changed) and breaks, delivering nothing; consequently, starting a
cycle below `STOP_AFTER`, every stats count persisted during the cycle
is at most `STOP_AFTER`. -/
theorem claim_C6 (cfg : Config) (orc : Post → PostOracle) (st : CycleSt) (p : Post) (it : WaitItem) (bot : BotState) (cycleDay : String) (posts : List Post) (now : Int) :
    (cfg.STOP_AFTER ≤ st.bot.reply_count_today →
      readyStep cfg orc st p =
        ({ st with bot := reset_if_new_day st.bot (orc p).newDay }, true) ∧
      waitingStep cfg orc st it =
        ({ st with bot := reset_if_new_day st.bot (orc it.tweet).newDay }, true) ∧
      ((orc p).newDay ≠ st.bot.current_day →
        (readyStep cfg orc st p).1.bot.reply_count_today = 0)) ∧
    (bot.reply_count_today < cfg.STOP_AFTER →
      ∀ e ∈ (process_cycle cfg orc bot cycleDay posts now).bot.writes,
        e ∈ bot.writes ∨ ∀ n, e = PEvent.stats n → n ≤ cfg.STOP_AFTER) := by
  constructor
  · intro hstop
    refine ⟨by rw [readyStep, if_pos hstop], ?_, ?_⟩
    · rw [waitingStep]
      simp only
      rw [if_pos hstop]
    · intro hnew
      rw [readyStep, if_pos hstop]
      simp [reset_if_new_day, hnew]
  · intro hlt
    have h0 : statsBounded cfg.STOP_AFTER bot.writes
        { bot := reset_if_new_day bot cycleDay
          authors_replied_this_cycle := []
          genCalls := []
          attempts := []
          delivered := [] } := by
      have hb : statsBounded cfg.STOP_AFTER bot.writes
          { bot := bot
            authors_replied_this_cycle := []
            genCalls := []
            attempts := []
            delivered := [] } := ⟨by dsimp only; omega, fun e he => Or.inl he⟩
      exact statsBounded_reset _ _ _ cycleDay hb
    have h1 := foldStop_inv (readyStep cfg orc) (statsBounded cfg.STOP_AFTER bot.writes)
      (fun s x h => readyStep_statsBounded cfg bot.writes orc s x h)
      (partitionPosts cfg (reset_if_new_day bot cycleDay).replied_ids now posts).1 _ h0
    have h2 := foldStop_inv (waitingStep cfg orc) (statsBounded cfg.STOP_AFTER bot.writes)
      (fun s x h => waitingStep_statsBounded cfg bot.writes orc s x h)
      (partitionPosts cfg (reset_if_new_day bot cycleDay).replied_ids now posts).2 _ h1
    exact h2.2

/-- Witness for C6: at the limit, the ready step sleeps into the next
day, resets and breaks. -/
theorem claim_C6_witness :
    readyStep cfgW orcW stStopW pW =
      ({ stStopW with bot := reset_if_new_day stStopW.bot (orcW pW).newDay }, true) :=
  ((claim_C6 cfgW orcW stStopW pW itW botW "2026-10-11" [] 0).1 (by decide)).1

/-- When the cooldown and per-cycle checks pass, generation succeeds
and delivery succeeds, the shared body records the delivery for the
post. -/
theorem body_delivers (cfg : Config) (o : PostOracle) (st : CycleSt) (p : Post) (rt : String) (hcool : coolingDown cfg.PER_ACCOUNT_COOLDOWN st.bot.author_last_reply (author_key_of p) o.nowA = false) (hmem : author_key_of p ∉ st.authors_replied_this_cycle) (hgen : o.gen = GenResult.ok rt) (hout : o.outcome = DeliveryOutcome.delivered) :
    (processPostBody cfg o st p).1.delivered =
      st.delivered ++ [(p.id, author_key_of p)] := by
  by_cases h3 : (decide_mode (some p.text)).1 = "gmgn_pure" <;>
    by_cases h4 : (decide_mode (some p.text)).1 = "gmgn_context" <;>
      simp [processPostBody, deliverAndCommit, reply_to_tweet_result,
        hcool, hmem, h3, h4, hgen, hout]

/-- C5: the waiting list is re-evaluated in the same cycle with a fresh
timestamp under the same exclusion rules: a still-too-young post is
skipped unchanged (as is a processed, over-24h or over-max-age one),
while a post whose fresh age has reached `MIN_TWEET_AGE` proceeds and,
with the other checks passing and generation and delivery succeeding,
is replied to within the same cycle. -/
theorem claim_C5 (cfg : Config) (orc : Post → PostOracle) (st : CycleSt) (it : WaitItem) (c : Int) (rt : String) (hstop : st.bot.reply_count_today < cfg.STOP_AFTER) (hc : it.tweet.created_at = some c) :
    (it.tweet.id ∈ st.bot.replied_ids → waitingStep cfg orc st it = (st, false)) ∧
    ((orc it.tweet).now2 - c > 86400 → waitingStep cfg orc st it = (st, false)) ∧
    (c < (orc it.tweet).now2 - (cfg.MAX_TWEET_AGE_MINUTES : Int) * 60 →
      waitingStep cfg orc st it = (st, false)) ∧
    ((orc it.tweet).now2 - c < (cfg.MIN_TWEET_AGE : Int) →
      waitingStep cfg orc st it = (st, false)) ∧
    (it.tweet.id ∉ st.bot.replied_ids →
      (orc it.tweet).now2 - c ≤ 86400 →
      (orc it.tweet).now2 - (cfg.MAX_TWEET_AGE_MINUTES : Int) * 60 ≤ c →
      (cfg.MIN_TWEET_AGE : Int) ≤ (orc it.tweet).now2 - c →
      coolingDown cfg.PER_ACCOUNT_COOLDOWN st.bot.author_last_reply
        (author_key_of it.tweet) (orc it.tweet).nowA = false →
      author_key_of it.tweet ∉ st.authors_replied_this_cycle →
      (orc it.tweet).gen = GenResult.ok rt →
      (orc it.tweet).outcome = DeliveryOutcome.delivered →
      (waitingStep cfg orc st it).1.delivered =
        st.delivered ++ [(it.tweet.id, author_key_of it.tweet)]) := by
  refine ⟨?_, ?_, ?_, ?_, ?_⟩
  · intro hid
    rw [waitingStep]
    simp only
    rw [if_neg (by omega), if_pos hid]
  · intro h24
    rw [waitingStep]
    simp only
    rw [if_neg (by omega)]
    by_cases hid : it.tweet.id ∈ st.bot.replied_ids
    · rw [if_pos hid]
    · rw [if_neg hid, hc]
      dsimp only
      rw [if_pos h24]
  · intro hmax
    rw [waitingStep]
    simp only
    rw [if_neg (by omega)]
    by_cases hid : it.tweet.id ∈ st.bot.replied_ids
    · rw [if_pos hid]
    · rw [if_neg hid, hc]
      dsimp only
      by_cases h24 : (orc it.tweet).now2 - c > 86400
      · rw [if_pos h24]
      · rw [if_neg h24, if_pos hmax]
  · intro hmin
    rw [waitingStep]
    simp only
    rw [if_neg (by omega)]
    by_cases hid : it.tweet.id ∈ st.bot.replied_ids
    · rw [if_pos hid]
    · rw [if_neg hid, hc]
      dsimp only
      by_cases h24 : (orc it.tweet).now2 - c > 86400
      · rw [if_pos h24]
      · rw [if_neg h24]
        by_cases hmax : c < (orc it.tweet).now2 - (cfg.MAX_TWEET_AGE_MINUTES : Int) * 60
        · rw [if_pos hmax]
        · rw [if_neg hmax, if_pos hmin]
  · intro hid h24 hmax hmin hcool hmem hgen hout
    rw [waitingStep]
    simp only
    rw [if_neg (by omega), if_neg hid, hc]
    dsimp only
    rw [if_neg (by omega), if_neg (by omega), if_neg (by omega)]
    exact body_delivers cfg (orc it.tweet) st it.tweet rt hcool hmem hgen hout

/-- Witness for C5: the spec example, a post first seen 30 seconds old,
re-checked at age 200 seconds with `MIN_TWEET_AGE = 180`, is replied to
within the same cycle. -/
theorem claim_C5_witness :
    (waitingStep cfgW orcW stW itW).1.delivered =
      stW.delivered ++ [(itW.tweet.id, author_key_of itW.tweet)] :=
  (claim_C5 cfgW orcW stW itW 1000 "nice post indeed" (by decide) (by decide)).2.2.2.2
    (by decide) (by decide) (by decide) (by decide) (by decide) (by decide)
    (by decide) (by decide)

/-- C7: a post classified as a pure greeting gets the deterministic
reply text, the kind followed by the display name when present, with no
OpenAI call made for it. -/
theorem claim_C7 (cfg : Config) (orc : Post → PostOracle) (st : CycleSt) (p : Post) (kv : String) (hstop : st.bot.reply_count_today < cfg.STOP_AFTER) (hid : p.id ∉ st.bot.replied_ids) (hcool : coolingDown cfg.PER_ACCOUNT_COOLDOWN st.bot.author_last_reply (author_key_of p) (orc p).nowA = false) (hcyc : author_key_of p ∉ st.authors_replied_this_cycle) (hmode : decide_mode (some p.text) = ("gmgn_pure", some kv)) :
    (readyStep cfg orc st p).1.genCalls = st.genCalls ∧
    (readyStep cfg orc st p).1.attempts = st.attempts ++
      [⟨p.id, pureReplyText p, reply_to_tweet_result (orc p).outcome⟩] ∧
    pureReplyText p =
      (if p.display_name.getD "" = "" then pyOrOpt (some kv) "GM"
       else pyOrOpt (some kv) "GM" ++ " " ++ p.display_name.getD "") := by
  have h3 : (decide_mode (some p.text)).1 = "gmgn_pure" := by rw [hmode]
  refine ⟨?_, ?_, ?_⟩
  · rw [readyStep, if_neg (by omega), if_neg hid]
    cases hsucc : reply_to_tweet_result (orc p).outcome <;>
      simp [processPostBody, deliverAndCommit, hcool, hcyc, h3, hsucc]
  · rw [readyStep, if_neg (by omega), if_neg hid]
    cases hsucc : reply_to_tweet_result (orc p).outcome <;>
      simp [processPostBody, deliverAndCommit, pureReplyText, hcool, hcyc, h3, hsucc]
  · rw [pureReplyText, hmode]

/-- Witness for C7: for the post with text "gm ct" and display name
"Alice", the typed reply text is exactly "GM Alice" and no OpenAI call
is made. -/
theorem claim_C7_witness :
    (readyStep cfgW orcW stW pW).1.genCalls = [] ∧
      (readyStep cfgW orcW stW pW).1.attempts = [⟨"t1", "GM Alice", true⟩] := by
  have h := claim_C7 cfgW orcW stW pW "GM" (by decide) (by decide) (by decide)
    (by decide) (by decide)
  refine ⟨h.1.trans rfl, h.2.1.trans ?_⟩
  rw [h.2.2]
  decide

/-- C9: an author whose stored last-reply value does not parse as a
timestamp is never considered cooling down (the exception is
swallowed), so a reply to that author can be delivered no matter how
recent the stored value claims to be. -/
theorem claim_C9 (cfg : Config) (orc : Post → PostOracle) (st : CycleSt) (p : Post) (s rt : String) (hbad : List.lookup (author_key_of p) st.bot.author_last_reply = some (TSVal.bad s)) :
    (∀ (cd : Nat) (now : Int),
      coolingDown cd st.bot.author_last_reply (author_key_of p) now = false) ∧
    (st.bot.reply_count_today < cfg.STOP_AFTER → p.id ∉ st.bot.replied_ids →
      author_key_of p ∉ st.authors_replied_this_cycle →
      (orc p).gen = GenResult.ok rt →
      (orc p).outcome = DeliveryOutcome.delivered →
      (readyStep cfg orc st p).1.delivered =
        st.delivered ++ [(p.id, author_key_of p)]) := by
  have hcd : ∀ (cd : Nat) (now : Int),
      coolingDown cd st.bot.author_last_reply (author_key_of p) now = false := by
    intro cd now
    rw [coolingDown, hbad]
    rfl
  refine ⟨hcd, ?_⟩
  intro hstop hid hcyc hgen hout
  rw [readyStep, if_neg (by omega), if_neg hid]
  exact body_delivers cfg (orc p) st p rt (hcd _ _) hcyc hgen hout

/-- Witness for C9: with the stored value "not a timestamp" for
"@alice", the reply to the post by "@alice" is delivered. -/
theorem claim_C9_witness :
    (readyStep cfgW orcW stBadW pW).1.delivered =
      stBadW.delivered ++ [(pW.id, author_key_of pW)] :=
  (claim_C9 cfgW orcW stBadW pW "not a timestamp" "nice post indeed" (by decide)).2
    (by decide) (by decide) (by decide) (by decide) (by decide)

end YapBot
